import Mathlib

/- Verification of the core of the code-for-ibmi editor extension against its
   design specification. Each component under scrutiny is embedded as
   executable Lean definitions translated from the TypeScript source, and the
   specified properties are settled as theorems about those definitions. -/

/- ===================== Definitions ===================== -/

/- Component: ConfigFile resolver (src/api/config/configFile.ts).
   JSON documents are modelled by the inductive JValue below; JavaScript
   undefined is modelled by Option.none wherever the source distinguishes it
   from parsed values. -/

namespace ConfigFile

/-- JSON values as produced by JSON.parse in the source. -/
inductive JValue where
  | null : JValue
  | bool (b : Bool) : JValue
  | num (n : Int) : JValue
  | str (s : String) : JValue
  | arr (elems : List JValue) : JValue
  | obj (fields : List (String × JValue)) : JValue

/-- JavaScript truthiness of a parsed JSON value. -/
def truthy : JValue → Bool
  | .null => false
  | .bool b => b
  | .num n => n != 0
  | .str s => s != ""
  | .arr _ => true
  | .obj _ => true

/-- Truthiness of a possibly-undefined value (none models undefined). -/
def truthyOpt : Option JValue → Bool
  | none => false
  | some v => truthy v

/-- Load state of one source, the type ConfigResult of the source file. -/
inductive ConfigResult where
  | not_loaded : ConfigResult
  | no_exist : ConfigResult
  | failed_to_parse : ConfigResult
  | ok : ConfigResult
deriving DecidableEq

/-- The mutable fields of the ConfigFile class: the two load states, the two
policy flags and the cached server data. The validateAndCleanInPlace hook is
modelled as undefined, which is its default; none of the claims install one. -/
structure State where
  stateServer : ConfigResult
  stateWorkspace : ConfigResult
  hasServerFile : Bool
  mergeArrays : Bool
  serverData : Option JValue

/-- Outcome of probing and downloading the server file in loadFromServer:
the stream file is absent, or present with a body that fails JSON.parse, or
present with a body parsing to the given value. -/
inductive ServerFile where
  | absent : ServerFile
  | invalid : ServerFile
  | valid (v : JValue) : ServerFile

/-- Outcome of the workspace findFiles search in get (at most one file is
requested): no file found, or a file whose body fails JSON.parse, or a file
parsing to the given value. -/
inductive WorkspaceFile where
  | noFile : WorkspaceFile
  | invalid : WorkspaceFile
  | valid (v : JValue) : WorkspaceFile

/-- Method loadFromServer of ConfigFile. When hasServerFile is set it first
records no_exist, then on a readable file either records ok and stores the
parsed body, or records failed_to_parse; in every case the field serverData
is assigned the local variable serverConfig, which is still undefined unless
the parse succeeded. -/
def loadFromServer (cfg : State) (file : ServerFile) : State :=
  if cfg.hasServerFile then
    let base := { cfg with stateServer := ConfigResult.no_exist }
    match file with
    | ServerFile.absent => { base with serverData := none }
    | ServerFile.invalid =>
        { base with stateServer := ConfigResult.failed_to_parse, serverData := none }
    | ServerFile.valid v =>
        { base with stateServer := ConfigResult.ok, serverData := some v }
  else cfg

/-- Property lookup v[k] on a parsed JSON value, as JavaScript indexing with a
string key: field lookup on objects, numeric-string indexing on arrays,
undefined otherwise. -/
def getKey : JValue → String → Option JValue
  | .obj fields, k => fields.lookup k
  | .arr elems, k =>
      match k.toNat? with
      | some i => elems.get? i
      | none => none
  | _, _ => none

/-- Whether a possibly-undefined value is an array, as Array.isArray. -/
def isArrOpt : Option JValue → Bool
  | some (.arr _) => true
  | _ => false

/-- Elements of a possibly-undefined value known to be an array (spread). -/
def arrElems : Option JValue → List JValue
  | some (.arr elems) => elems
  | _ => []

/-- Keys enumerated by a JavaScript for-in loop over a value: field names of
an object in order, index strings of an array, nothing otherwise. -/
def forInKeys : JValue → List String
  | .obj fields => fields.map Prod.fst
  | .arr elems => (List.range elems.length).map toString
  | _ => []

/-- The for-in loop of the mergeArrays branch of get. The accumulator starts
as the workspace document; for every enumerated key whose value is an array
both in the current accumulator and in the server data, the whole accumulator
is replaced by the concatenation of the workspace array and the server array
for that key. -/
def mergeLoop (workspaceConfig serverData : JValue) : List String → JValue → JValue
  | [], acc => acc
  | k :: ks, acc =>
      if isArrOpt (getKey acc k) && isArrOpt (getKey serverData k) then
        mergeLoop workspaceConfig serverData ks
          (JValue.arr (arrElems (getKey workspaceConfig k) ++ arrElems (getKey serverData k)))
      else
        mergeLoop workspaceConfig serverData ks acc

/-- Method get of ConfigFile. The arguments hasWorkspaceFolders and
currentWorkspace model the truth of workspace.workspaceFolders and of the
optional argument; file models the body of the single workspace config file
findFiles may return. Returns the value get returns (none for undefined)
together with the state after the call. -/
def get (cfg : State) (hasWorkspaceFolders currentWorkspace : Bool)
    (file : WorkspaceFile) : Option JValue × State :=
  if truthyOpt cfg.serverData then (cfg.serverData, cfg)
  else
    let step :=
      if hasWorkspaceFolders && currentWorkspace then
        let cfgA := { cfg with stateServer := ConfigResult.no_exist }
        match file with
        | WorkspaceFile.noFile => ((none : Option JValue), cfgA)
        | WorkspaceFile.invalid =>
            ((none : Option JValue), { cfgA with stateServer := ConfigResult.failed_to_parse })
        | WorkspaceFile.valid v =>
            (some v, { cfgA with stateWorkspace := ConfigResult.ok })
      else ((none : Option JValue), cfg)
    let workspaceConfig := step.fst
    let cfgB := step.snd
    if workspaceConfig.isNone && cfgB.serverData.isNone then (none, cfgB)
    else
      let resultingConfig :=
        if cfgB.mergeArrays && truthyOpt workspaceConfig && truthyOpt cfgB.serverData then
          match workspaceConfig, cfgB.serverData with
          | some wc, some sd => some (mergeLoop wc sd (forInKeys wc) wc)
          | _, _ => none
        else
          if truthyOpt workspaceConfig then workspaceConfig else cfgB.serverData
      (resultingConfig, cfgB)

/-- Method reset of ConfigFile: clears the cached server data. -/
def reset (cfg : State) : State :=
  { cfg with serverData := none }

/-- Concrete documents and states used to evaluate the claims. -/
def wvC1 : JValue := JValue.obj [("workspaceKey", JValue.num 2)]

def svC1 : JValue := JValue.obj [("serverKey", JValue.num 1)]

def cfgC1 : State :=
  { stateServer := ConfigResult.ok, stateWorkspace := ConfigResult.not_loaded,
    hasServerFile := true, mergeArrays := false, serverData := some svC1 }

def wvC2 : JValue := JValue.obj [("K", JValue.arr [JValue.num 2])]

def svC2 : JValue := JValue.obj [("K", JValue.arr [JValue.num 1])]

def cfgC2 : State :=
  { stateServer := ConfigResult.ok, stateWorkspace := ConfigResult.not_loaded,
    hasServerFile := true, mergeArrays := true, serverData := some svC2 }

def cfgC3 : State :=
  { stateServer := ConfigResult.ok, stateWorkspace := ConfigResult.not_loaded,
    hasServerFile := true, mergeArrays := false,
    serverData := some (JValue.obj [("cached", JValue.bool true)]) }

def cfgC4init : State :=
  { stateServer := ConfigResult.not_loaded, stateWorkspace := ConfigResult.not_loaded,
    hasServerFile := true, mergeArrays := false, serverData := none }

end ConfigFile

/- Component: invalid-character cleanup (src/languages/colour.ts). Document
   text is modelled as the list of its UTF-16 code units, which is what both
   charCodeAt and the split-into-single-characters loop of the source see. -/

namespace Colour

/-- Constant NEW_LINE_NUMBERS of the source. -/
def NEW_LINE_NUMBERS : List Nat := [10, 13]

/-- Function replaceCharCode: a code is invalid when it is below 32 and not a
newline code, or between 128 and 157 inclusive. -/
def replaceCharCode (charCode : Nat) : Bool :=
  if (decide (charCode < 32) && !(NEW_LINE_NUMBERS.contains charCode)) ||
      (decide (128 ≤ charCode) && decide (charCode ≤ 157)) then
    true
  else
    false

/-- Function replaceInvalidCharacters: the source splits the content into its
single characters, overwrites with a space every index whose code
replaceCharCode flags, leaves every other index unchanged and joins back,
which is the pointwise map below. Code 32 is the space character. -/
def replaceInvalidCharacters (content : List Nat) : List Nat :=
  content.map (fun c => if replaceCharCode c then 32 else c)

end Colour

/- Component: debug session bootstrap (the debug extension module registering
   the commands code-for-ibmi.debug.setup.remote and
   code-for-ibmi.debug.setup.local). -/

namespace DebugSetup

/-- Result of the command code-for-ibmi.debug.setup.remote: whether the
remote certificate material ended up usable, whether it was freshly
generated, and the force argument handed to the local setup command when
that command is invoked (none when it is not invoked). -/
structure RemoteSetupResult where
  remoteCertsOk : Bool
  remoteCertsAreNew : Bool
  localInvokedWithForce : Option Bool
deriving DecidableEq

/-- Command code-for-ibmi.debug.setup.remote, for an available connection.
The arguments model the PTF probe, the remote certificate existence probe,
the answer to the consent prompt and whether certificates.setup succeeds.
When the remote certificates end up ok the local setup command is invoked
with force equal to remoteCertsAreNew. -/
def setupRemote (ptfInstalled remoteExists userConsents setupSucceeds : Bool) :
    RemoteSetupResult :=
  if ptfInstalled then
    let flags :=
      if remoteExists then (true, false)
      else if userConsents then
        if setupSucceeds then (true, true) else (false, false)
      else (false, false)
    { remoteCertsOk := flags.fst, remoteCertsAreNew := flags.snd,
      localInvokedWithForce := if flags.fst then some flags.snd else none }
  else
    { remoteCertsOk := false, remoteCertsAreNew := false, localInvokedWithForce := none }

/-- Command code-for-ibmi.debug.setup.local, for an available connection:
when the PTF is installed, the existing local material is trusted exactly
when it exists and force is not set; otherwise certificates.downloadToLocal
is called. Returns whether the download is performed, none when the PTF is
missing and the step does nothing. -/
def setupLocalDownloads (ptfInstalled localExists force : Bool) : Option Bool :=
  if ptfInstalled then some (!(localExists && !force)) else none

end DebugSetup

/- Component: connection lifecycle coordinator (src/instantiate.ts),
   functions disconnect and onDisconnected. -/

namespace Lifecycle

/-- An open text document as the disconnect guard sees it. -/
structure TextDoc where
  isClosed : Bool
  isDirty : Bool
  scheme : String
deriving DecidableEq

/-- The schemes guarded at disconnect, the literal list of the source. -/
def remoteSchemes : List String := ["member", "streamfile", "object"]

/-- Whether a document triggers the unsaved-changes guard: it is not closed,
its scheme is one of the guarded schemes, and it is dirty. -/
def relevantDirty (d : TextDoc) : Bool :=
  (!d.isClosed && remoteSchemes.contains d.scheme) && d.isDirty

/-- The for loop of function disconnect. The argument answers gives the
answer of each successive confirmation prompt, true meaning the user chose
Disconnect anyway and false any decline or dismissal. The accumulators are
the doDisconnect flag and the number of prompts shown so far; the returned
pair is their final value. A true answer breaks out of the loop; a false
answer clears doDisconnect, whose guard then prevents any further prompt. -/
def disconnectLoop (answers : Nat → Bool) : List TextDoc → Bool → Nat → Bool × Nat
  | [], doDisconnect, prompts => (doDisconnect, prompts)
  | d :: ds, doDisconnect, prompts =>
      if !d.isClosed && remoteSchemes.contains d.scheme then
        if d.isDirty then
          if doDisconnect then
            if answers prompts then (doDisconnect, prompts + 1)
            else disconnectLoop answers ds false (prompts + 1)
          else disconnectLoop answers ds doDisconnect prompts
        else disconnectLoop answers ds doDisconnect prompts
      else disconnectLoop answers ds doDisconnect prompts

/-- Function disconnect: runs the guard loop over the open documents with
doDisconnect initially true and no prompt shown yet. The first component is
the returned doDisconnect flag, the second the number of prompts shown. -/
def disconnect (docs : List TextDoc) (answers : Nat → Bool) : Bool × Nat :=
  disconnectLoop answers docs true 0

/-- Whether connection.end() is reached: disconnect returned with
doDisconnect still true and a connection object is present. -/
def disconnectEndsConnection (docs : List TextDoc) (answers : Nat → Bool)
    (connectionActive : Bool) : Bool :=
  (disconnect docs answers).fst && connectionActive

/-- Input of an editor tab: a text input carrying the scheme of its URI, or
any other kind of input. -/
inductive TabInput where
  | text (scheme : String) : TabInput
  | other : TabInput
deriving DecidableEq

/-- An editor tab as onDisconnected sees it. -/
structure Tab where
  isDirty : Bool
  input : TabInput
deriving DecidableEq

/-- A tab group. -/
structure TabGroup where
  tabs : List Tab
deriving DecidableEq

/-- Whether a tab is a text tab of one of the guarded schemes. -/
def isRemoteTextTab (t : Tab) : Bool :=
  match t.input with
  | TabInput.text scheme => remoteSchemes.contains scheme
  | TabInput.other => false

/-- The tab-closing pass of function onDisconnected: groups containing any
dirty tab are filtered out first; inside every remaining group each text tab
whose scheme is member, streamfile or object is closed. Returns the list of
closed tabs. -/
def closedTabs (groups : List TabGroup) : List Tab :=
  (groups.filter (fun g => !g.tabs.any (fun t => t.isDirty))).flatMap
    (fun g => g.tabs.filter isRemoteTextTab)

/-- Effects of function onDisconnected: the closed tabs, and the visibility
of the four connection status bar items, all of which are hidden. -/
structure UIEffects where
  closed : List Tab
  barItemsVisible : Bool
deriving DecidableEq

/-- Function onDisconnected. -/
def onDisconnected (groups : List TabGroup) : UIEffects :=
  { closed := closedTabs groups, barItemsVisible := false }

/-- Every tab of every group, in order. -/
def allTabs (groups : List TabGroup) : List Tab :=
  groups.flatMap (fun g => g.tabs)

/-- Concrete tab layout for the C7 counterexample: one group holding a dirty
member tab and a clean member tab. -/
def groupsC7 : List TabGroup :=
  [⟨[⟨true, TabInput.text "member"⟩, ⟨false, TabInput.text "member"⟩]⟩]

/-- Concrete tab layout for the C7 witness: one group holding a clean member
tab and a clean non-text tab. -/
def groupsC7w : List TabGroup :=
  [⟨[⟨false, TabInput.text "member"⟩, ⟨false, TabInput.other⟩]⟩]

end Lifecycle

/- Component: the connect URI handler (src/uri/index.ts). -/

namespace UriHandler

/-- Connection data as persisted in the connections list. -/
structure ConnectionData where
  host : String
  name : String
  username : String
  password : Option String
  port : Nat
deriving DecidableEq

/-- The connection data the handler builds from the parsed query: the name is
the user, a dash, then the host. -/
def mkConnectionData (user host : String) (port : Nat) (pass : String) :
    ConnectionData :=
  { host := host, name := user ++ "-" ++ host, username := user,
    password := some pass, port := port }

/-- The save branch of the connect URI handler, entered after a successful
connect with save requested and a defined connections list: an existing
connection is looked up by comparing each name with the HOST; when none is
found the connection data is appended with its password removed and the
password is written to secret storage under the key host underscore
password. Returns the resulting connections list and the written secrets. -/
def saveConnection (existingConnections : List ConnectionData)
    (connectionData : ConnectionData) (pass host : String) :
    List ConnectionData × List (String × String) :=
  match existingConnections.find? (fun item => item.name == host) with
  | some _ => (existingConnections, [])
  | none =>
      (existingConnections ++ [{ connectionData with password := none }],
       [(host ++ "_password", pass)])

/-- A connection entry as left behind by a previous save of user u at host h:
name u dash h, password stripped. -/
def storedUH : ConnectionData :=
  { host := "h", name := "u-h", username := "u", password := none, port := 22 }

/-- Fresh connection data for the same user and host. -/
def newUH : ConnectionData := mkConnectionData "u" "h" 22 "pw"

end UriHandler

/- Component: resource URI identity (the Tools module defining
   areEquivalentUris and uriStringWithoutFragment). JavaScript strings are
   modelled as the lists of their UTF-16 code units, and toLowerCase is
   modelled on the ASCII range, which covers the schemes and the
   case-sensitive root the source compares. -/

namespace UriUtils

/-- ASCII lowering of one code unit: codes 65 to 90 shift to 97 to 122. -/
def lowerCode (c : Nat) : Nat :=
  if 65 ≤ c ∧ c ≤ 90 then c + 32 else c

/-- Lowering of a whole string of code units, as toLowerCase. -/
def lowerStr (s : List Nat) : List Nat :=
  s.map lowerCode

/-- Code units of a Lean string literal, to write concrete JS strings. -/
def strCodes (s : String) : List Nat :=
  s.data.map Char.toNat

/-- A URI as the source reads it: scheme, path, query and fragment. The
readonly flag of a resource URI travels in the query part; 58 is the colon
code unit. -/
structure Uri where
  scheme : List Nat
  path : List Nat
  query : List Nat
  fragment : List Nat
deriving DecidableEq

/-- The case-sensitive root written lowered: the source regex matching
/QOpenSys/ at the start of the path carries the ignore-case flag. -/
def qopensysRoot : List Nat := strCodes "/qopensys/"

/-- The ignore-case regex test: the path starts with the case-sensitive
root once both are lowered. -/
def underQOpenSys (p : List Nat) : Bool :=
  decide ((lowerStr p).take qopensysRoot.length = qopensysRoot)

/-- Function uriStringWithoutFragment: scheme, colon and path, the whole
string lowered unless the URI is a streamfile URI whose path lies under the
case-sensitive root. Query and fragment never enter the string. -/
def uriStringWithoutFragment (uri : Uri) : List Nat :=
  if uri.scheme = strCodes "streamfile" ∧ underQOpenSys uri.path = true then
    uri.scheme ++ 58 :: uri.path
  else
    lowerStr (uri.scheme ++ 58 :: uri.path)

/-- Function areEquivalentUris: equality of the two base strings. -/
def areEquivalentUris (a b : Uri) : Bool :=
  decide (uriStringWithoutFragment a = uriStringWithoutFragment b)

/-- The normalized path in the sense of the claim: kept for a streamfile
path under the case-sensitive root, lowered for every other path. -/
def normPath (uri : Uri) : List Nat :=
  if uri.scheme = strCodes "streamfile" ∧ underQOpenSys uri.path = true then
    uri.path
  else
    lowerStr uri.path

/-- A scheme is well formed when it holds no colon and no ASCII uppercase
letter; the four schemes of the source (member, streamfile, object, file)
all are. -/
def schemeOk (s : List Nat) : Prop :=
  58 ∉ s ∧ lowerStr s = s

end UriUtils

/- ===================== Theorems ===================== -/

namespace ConfigFile

/-- C1 counterexample: with mergeArrays disabled, a server config parsed
successfully to a truthy document and a workspace config also parsed
successfully, get returns the server document, not the workspace document:
the claim that get returns the workspace document fails at this input. -/
theorem c1_counterexample :
    cfgC1.mergeArrays = false ∧ cfgC1.stateServer = ConfigResult.ok ∧
    (get cfgC1 true true (WorkspaceFile.valid wvC1)).fst = some svC1 ∧
    (get cfgC1 true true (WorkspaceFile.valid wvC1)).fst ≠ some wvC1 := by
  refine ⟨rfl, rfl, rfl, fun h => ?_⟩
  rw [show (get cfgC1 true true (WorkspaceFile.valid wvC1)).fst = some svC1 from rfl] at h
  simp [svC1, wvC1] at h

/-- C1 (amended): with mergeArrays disabled, get returns the cached server
document whenever that document is truthy (the server document fully
overrides the workspace one); only when the cached server data is undefined
is the parsed workspace document returned. -/
theorem c1_get_server_priority (cfg : State) (hmerge : cfg.mergeArrays = false) :
    (∀ (hwf cw : Bool) (file : WorkspaceFile), truthyOpt cfg.serverData = true →
        get cfg hwf cw file = (cfg.serverData, cfg)) ∧
    (∀ wv : JValue, cfg.serverData = none → truthy wv = true →
        (get cfg true true (WorkspaceFile.valid wv)).fst = some wv) := by
  constructor
  · intro hwf cw file htruthy
    simp [get, htruthy]
  · intro wv hnone htruthy
    simp [get, hnone, truthyOpt, hmerge, htruthy]

/-- C1 witness: the amended theorem applied at a concrete state. -/
theorem c1_witness :
    get cfgC1 true true (WorkspaceFile.valid wvC1) = (some svC1, cfgC1) :=
  (c1_get_server_priority cfgC1 rfl).1 true true (WorkspaceFile.valid wvC1) rfl

/-- C2 counterexample: with mergeArrays enabled and both configs parsed
successfully sharing the array-valued key K, the value of K in the document
get returns is the server array alone, not the workspace array followed by
the server array. -/
theorem c2_counterexample :
    cfgC2.mergeArrays = true ∧
    ((get cfgC2 true true (WorkspaceFile.valid wvC2)).fst.bind
        (fun doc => getKey doc "K")) = some (JValue.arr [JValue.num 1]) ∧
    some (JValue.arr [JValue.num 1]) ≠
      some (JValue.arr [JValue.num 2, JValue.num 1]) := by
  refine ⟨rfl, rfl, fun h => ?_⟩
  simp at h

/-- C2 (amended): because get returns truthy cached server data immediately,
the array-concatenation branch never executes; with both configs parsed
successfully and the server document truthy, get returns the server document
unchanged, so every shared key keeps its server value. -/
theorem c2_merge_unreachable (cfg : State) (_hmerge : cfg.mergeArrays = true)
    (sv : JValue) (hs : cfg.serverData = some sv) (ht : truthy sv = true)
    (hwf cw : Bool) (file : WorkspaceFile) :
    (get cfg hwf cw file).fst = some sv ∧
    (∀ k : String,
      ((get cfg hwf cw file).fst.bind (fun doc => getKey doc k)) = getKey sv k) := by
  have hres : get cfg hwf cw file = (cfg.serverData, cfg) := by
    have htruthy : truthyOpt cfg.serverData = true := by
      rw [hs]; exact ht
    simp [get, htruthy]
  rw [hres, hs]
  exact ⟨rfl, fun k => rfl⟩

/-- C2 witness: the amended theorem applied at a concrete state. -/
theorem c2_witness :
    (get cfgC2 true true (WorkspaceFile.valid wvC2)).fst = some svC2 :=
  (c2_merge_unreachable cfgC2 rfl svC2 rfl rfl true true (WorkspaceFile.valid wvC2)).1

/-- C3 counterexample: loadFromServer on a server file that fails to parse
records failed_to_parse but clears the previously cached server data instead
of leaving it unchanged. -/
theorem c3_counterexample :
    (loadFromServer cfgC3 ServerFile.invalid).stateServer = ConfigResult.failed_to_parse ∧
    (loadFromServer cfgC3 ServerFile.invalid).serverData = none ∧
    cfgC3.serverData ≠ none := by
  refine ⟨rfl, rfl, fun h => ?_⟩
  simp [cfgC3] at h

/-- C3 (amended): when the server file exists but its body fails to parse,
loadFromServer records failed_to_parse and resets the cached server data to
undefined (the previous cached value is cleared, not preserved). -/
theorem c3_parse_failure_clears_cache (cfg : State) (h : cfg.hasServerFile = true) :
    (loadFromServer cfg ServerFile.invalid).stateServer = ConfigResult.failed_to_parse ∧
    (loadFromServer cfg ServerFile.invalid).serverData = none := by
  simp [loadFromServer, h]

/-- C3 witness: the amended theorem applied at a concrete state. -/
theorem c3_witness :
    (loadFromServer cfgC3 ServerFile.invalid).stateServer = ConfigResult.failed_to_parse ∧
    (loadFromServer cfgC3 ServerFile.invalid).serverData = none :=
  c3_parse_failure_clears_cache cfgC3 rfl

/-- C4 code divergence: after a server parse failure, calling get with a
workspace folder open that contains no config file returns undefined as the
claim states, but overwrites the server load state with no_exist, so
getState reports no_exist instead of failed_to_parse. -/
theorem c4_state_clobbered :
    (loadFromServer cfgC4init ServerFile.invalid).stateServer = ConfigResult.failed_to_parse ∧
    (get (loadFromServer cfgC4init ServerFile.invalid) true true WorkspaceFile.noFile).fst = none ∧
    (get (loadFromServer cfgC4init ServerFile.invalid) true true
        WorkspaceFile.noFile).snd.stateServer = ConfigResult.no_exist :=
  ⟨rfl, rfl, rfl⟩

end ConfigFile

namespace Colour

/-- Auxiliary: the flag of replaceCharCode spelled arithmetically. -/
theorem replaceCharCode_iff (c : Nat) :
    replaceCharCode c = true ↔
      ((c < 32 ∧ c ≠ 10 ∧ c ≠ 13) ∨ (128 ≤ c ∧ c ≤ 157)) := by
  simp [replaceCharCode, NEW_LINE_NUMBERS]

/-- C9: replaceInvalidCharacters keeps the length of its input, replaces
exactly the characters whose code is below 32 (other than 10 and 13) or
between 128 and 157 inclusive with a space (code 32) leaving every other
character unchanged, is idempotent, and leaves no character that
replaceCharCode flags as invalid. -/
theorem c9_replace_invalid_characters (content : List Nat) :
    (replaceInvalidCharacters content).length = content.length ∧
    replaceInvalidCharacters content = content.map (fun c =>
      if (c < 32 ∧ c ≠ 10 ∧ c ≠ 13) ∨ (128 ≤ c ∧ c ≤ 157) then 32 else c) ∧
    replaceInvalidCharacters (replaceInvalidCharacters content) =
      replaceInvalidCharacters content ∧
    (∀ c ∈ replaceInvalidCharacters content, replaceCharCode c = false) := by
  have hpt : ∀ c : Nat, (if replaceCharCode c then 32 else c) =
      (if (c < 32 ∧ c ≠ 10 ∧ c ≠ 13) ∨ (128 ≤ c ∧ c ≤ 157) then 32 else c) := by
    intro c
    by_cases h : replaceCharCode c = true
    · rw [if_pos h, if_pos ((replaceCharCode_iff c).mp h)]
    · rw [if_neg h, if_neg (fun hp => h ((replaceCharCode_iff c).mpr hp))]
  have hfix : ∀ c : Nat, replaceCharCode (if replaceCharCode c then 32 else c) = false := by
    intro c
    by_cases h : replaceCharCode c = true
    · rw [if_pos h]; rfl
    · rw [if_neg h]; exact Bool.not_eq_true _ |>.mp h
  refine ⟨by simp [replaceInvalidCharacters], ?_, ?_, ?_⟩
  · exact List.map_congr_left (fun c _ => hpt c)
  · unfold replaceInvalidCharacters
    rw [List.map_map]
    refine List.map_congr_left (fun c _ => ?_)
    simp only [Function.comp]
    rw [hfix c, if_neg Bool.false_ne_true]
  · intro c hc
    obtain ⟨a, _, ha⟩ := List.mem_map.mp hc
    rw [← ha]
    exact hfix a

/-- C9 witness: the theorem applied at a concrete content. -/
theorem c9_witness : replaceCharCode 158 = false :=
  (c9_replace_invalid_characters [158]).2.2.2 158 (by decide)

end Colour

namespace DebugSetup

/-- C8: whenever the remote setup command invokes the local setup command,
the force it passes is exactly the freshly-generated flag; the local step
skips the download exactly when local material exists and the remote
material was not freshly generated, and whenever the remote material was
freshly generated the local step downloads a fresh copy even when a local
certificate already exists. -/
theorem c8_local_redownload (ptfInstalled remoteExists userConsents setupSucceeds
    localExists force : Bool)
    (hinv : (setupRemote ptfInstalled remoteExists userConsents
        setupSucceeds).localInvokedWithForce = some force) :
    force = (setupRemote ptfInstalled remoteExists userConsents
        setupSucceeds).remoteCertsAreNew ∧
    (setupLocalDownloads true localExists force = some false ↔
      localExists = true ∧ force = false) ∧
    (force = true → setupLocalDownloads true localExists force = some true) := by
  revert hinv
  revert ptfInstalled remoteExists userConsents setupSucceeds localExists force
  decide

/-- C8 witness: after a fresh remote generation the local step downloads even
though local material exists. -/
theorem c8_witness : setupLocalDownloads true true true = some true :=
  (c8_local_redownload true false true true true true rfl).2.2 rfl

end DebugSetup

namespace Lifecycle

/-- Auxiliary: once the doDisconnect flag has been cleared, the rest of the
disconnect loop shows no further prompt and leaves the flag cleared. -/
theorem disconnectLoop_false (answers : Nat → Bool) (ds : List TextDoc) (n : Nat) :
    disconnectLoop answers ds false n = (false, n) := by
  induction ds with
  | nil => rfl
  | cons d ds ih =>
      cases h1 : (!d.isClosed && remoteSchemes.contains d.scheme) <;>
        cases h2 : d.isDirty <;>
        simp [disconnectLoop, h1, h2, ih]

/-- Auxiliary: when some remaining document is a dirty guarded one and the
flag is still set, the loop shows exactly one more prompt and the flag ends
up equal to that prompt answer. -/
theorem disconnectLoop_dirty (answers : Nat → Bool) (ds : List TextDoc) (n : Nat)
    (h : ∃ d ∈ ds, relevantDirty d = true) :
    disconnectLoop answers ds true n = (answers n, n + 1) := by
  induction ds with
  | nil => simp at h
  | cons d ds ih =>
      cases h1 : (!d.isClosed && remoteSchemes.contains d.scheme) with
      | false =>
          have htail : ∃ x ∈ ds, relevantDirty x = true := by
            rcases h with ⟨x, hx, hrx⟩
            rcases List.mem_cons.mp hx with rfl | hx2
            · simp only [relevantDirty] at hrx
              rw [h1] at hrx
              simp at hrx
            · exact ⟨x, hx2, hrx⟩
          simp only [disconnectLoop]
          rw [h1, if_neg Bool.false_ne_true]
          exact ih htail
      | true =>
          cases h2 : d.isDirty with
          | false =>
              have htail : ∃ x ∈ ds, relevantDirty x = true := by
                rcases h with ⟨x, hx, hrx⟩
                rcases List.mem_cons.mp hx with rfl | hx2
                · simp only [relevantDirty] at hrx
                  rw [h2] at hrx
                  simp at hrx
                · exact ⟨x, hx2, hrx⟩
              simp only [disconnectLoop]
              rw [h1, if_pos rfl, h2, if_neg Bool.false_ne_true]
              exact ih htail
          | true =>
              simp only [disconnectLoop]
              rw [h1, if_pos rfl, h2, if_pos rfl, if_pos trivial]
              cases ha : answers n with
              | false => rw [if_neg Bool.false_ne_true, disconnectLoop_false]
              | true => rw [if_pos rfl]

/-- C6: on a disconnect request with at least one dirty open document of a
guarded scheme, exactly one confirmation prompt is shown; the returned
doDisconnect flag equals that single prompt answer, and connection.end() is
reached exactly when the answer was Disconnect anyway and a connection is
present, so any decline aborts the disconnect entirely. -/
theorem c6_single_prompt_governs (docs : List TextDoc) (answers : Nat → Bool)
    (h : ∃ d ∈ docs, relevantDirty d = true) :
    (disconnect docs answers).snd = 1 ∧
    (disconnect docs answers).fst = answers 0 ∧
    (∀ connectionActive : Bool,
      disconnectEndsConnection docs answers connectionActive =
        (answers 0 && connectionActive)) := by
  have hrun : disconnect docs answers = (answers 0, 1) := by
    unfold disconnect
    rw [disconnectLoop_dirty answers docs 0 h]
  refine ⟨by rw [hrun], by rw [hrun], fun connectionActive => ?_⟩
  unfold disconnectEndsConnection
  rw [hrun]

/-- C6 witness: one dirty member document and a declining user, so the
disconnect is aborted after a single prompt. -/
theorem c6_witness :
    (disconnect [⟨false, true, "member"⟩] (fun _ => false)).snd = 1 ∧
    (disconnect [⟨false, true, "member"⟩] (fun _ => false)).fst = false ∧
    disconnectEndsConnection [⟨false, true, "member"⟩] (fun _ => false) true = false := by
  have h := c6_single_prompt_governs [⟨false, true, "member"⟩] (fun _ => false)
    ⟨⟨false, true, "member"⟩, by decide, by decide⟩
  exact ⟨h.1, h.2.1, h.2.2 true⟩

/-- C7 counterexample: a clean member tab sharing a group with a dirty tab is
not closed by onDisconnected, although the claim says every clean tab of the
guarded schemes is closed. -/
theorem c7_counterexample :
    (⟨false, TabInput.text "member"⟩ : Tab) ∈ allTabs groupsC7 ∧
    (false = (⟨false, TabInput.text "member"⟩ : Tab).isDirty) ∧
    isRemoteTextTab ⟨false, TabInput.text "member"⟩ = true ∧
    (⟨false, TabInput.text "member"⟩ : Tab) ∉ (onDisconnected groupsC7).closed := by
  decide

/-- C7 (amended): onDisconnected closes per tab group: a tab is closed
exactly when it is a text tab of scheme member, streamfile or object lying
in a group none of whose tabs is dirty; in particular dirty tabs are never
closed, clean guarded tabs sharing a group with a dirty tab stay open, no
other tab is closed, and the connection status bar items are hidden. -/
theorem c7_close_per_group (groups : List TabGroup) :
    (onDisconnected groups).barItemsVisible = false ∧
    (∀ t : Tab, t ∈ (onDisconnected groups).closed ↔
      ∃ g ∈ groups, t ∈ g.tabs ∧ (∀ u ∈ g.tabs, u.isDirty = false) ∧
        isRemoteTextTab t = true) ∧
    (∀ t ∈ (onDisconnected groups).closed, t.isDirty = false) := by
  have hmem : ∀ t : Tab, t ∈ (onDisconnected groups).closed ↔
      ∃ g ∈ groups, t ∈ g.tabs ∧ (∀ u ∈ g.tabs, u.isDirty = false) ∧
        isRemoteTextTab t = true := by
    intro t
    simp only [onDisconnected, closedTabs, List.mem_flatMap, List.mem_filter,
      Bool.not_eq_true', List.any_eq_false, Bool.not_eq_true]
    constructor
    · rintro ⟨g, ⟨hg, hclean⟩, htg, hrem⟩
      exact ⟨g, hg, htg, hclean, hrem⟩
    · rintro ⟨g, hg, htg, hclean, hrem⟩
      exact ⟨g, ⟨hg, hclean⟩, htg, hrem⟩
  refine ⟨rfl, hmem, fun t ht => ?_⟩
  obtain ⟨g, _, htg, hclean, _⟩ := (hmem t).mp ht
  exact hclean t htg

/-- C7 witness: the amended theorem applied at a concrete layout, closing the
clean member tab of a dirty-free group. -/
theorem c7_witness :
    (⟨false, TabInput.text "member"⟩ : Tab) ∈ (onDisconnected groupsC7w).closed ∧
    (⟨false, TabInput.text "member"⟩ : Tab).isDirty = false := by
  have h := c7_close_per_group groupsC7w
  refine ⟨?_, ?_⟩
  · exact (h.2.1 ⟨false, TabInput.text "member"⟩).mpr
      ⟨⟨[⟨false, TabInput.text "member"⟩, ⟨false, TabInput.other⟩]⟩,
        by decide, by decide, by decide, by decide⟩
  · exact h.2.2 ⟨false, TabInput.text "member"⟩ (by decide)

end Lifecycle

namespace UriHandler

/-- C10 counterexample: a connection whose name exactly equals the name of
the entry about to be appended does not stop the append, because the lookup
compares names with the host: a duplicate entry is appended. -/
theorem c10_counterexample :
    storedUH.name = newUH.name ∧
    (saveConnection [storedUH] newUH "pw" "h").fst ≠ [storedUH] ∧
    (saveConnection [storedUH] newUH "pw" "h").fst =
      [storedUH, { newUH with password := none }] := by
  decide

/-- C10 (amended): the appended entry always has its password removed and
the password goes to secret storage under the key host underscore password,
but the duplicate guard compares existing names against the HOST, not
against the name of the new entry: the append is skipped exactly when some
existing connection is named like the host. -/
theorem c10_save_checks_host (existingConnections : List ConnectionData)
    (connectionData : ConnectionData) (pass host : String) :
    ((∀ e ∈ existingConnections, e.name ≠ host) →
      saveConnection existingConnections connectionData pass host =
        (existingConnections ++ [{ connectionData with password := none }],
         [(host ++ "_password", pass)])) ∧
    ((∃ e ∈ existingConnections, e.name = host) →
      saveConnection existingConnections connectionData pass host =
        (existingConnections, [])) := by
  constructor
  · intro h
    have hfind : existingConnections.find? (fun item => item.name == host) = none :=
      List.find?_eq_none.mpr (fun e he => by simp [h e he])
    simp [saveConnection, hfind]
  · rintro ⟨e, he, hname⟩
    have hsome : (existingConnections.find? (fun item => item.name == host)).isSome :=
      List.find?_isSome.mpr ⟨e, he, by simp [hname]⟩
    obtain ⟨v, hv⟩ := Option.isSome_iff_exists.mp hsome
    simp [saveConnection, hv]

/-- C10 witness: the amended theorem applied at a concrete input: the
existing entry named u-h does not block the save against host hB, and the
appended entry carries no password while the secret goes under hB_password. -/
theorem c10_witness :
    saveConnection [storedUH] newUH "pw" "hB" =
      ([storedUH, { newUH with password := none }], [("hB" ++ "_password", "pw")]) :=
  (c10_save_checks_host [storedUH] newUH "pw" "hB").1 (by decide)

end UriHandler

namespace UriUtils

/-- Auxiliary: ASCII lowering is idempotent on one code unit. -/
theorem lowerCode_idem (c : Nat) : lowerCode (lowerCode c) = lowerCode c := by
  unfold lowerCode
  split_ifs <;> omega

/-- Auxiliary: ASCII lowering is idempotent on strings. -/
theorem lowerStr_idem (s : List Nat) : lowerStr (lowerStr s) = lowerStr s := by
  unfold lowerStr
  rw [List.map_map]
  exact List.map_congr_left (fun c _ => lowerCode_idem c)

/-- Auxiliary: the ignore-case root test is blind to lowering. -/
theorem underQOpenSys_lowerStr (p : List Nat) :
    underQOpenSys (lowerStr p) = underQOpenSys p := by
  unfold underQOpenSys
  rw [lowerStr_idem]

/-- Auxiliary: lowering the base string of a lowercase scheme lowers only
the path part; 58, the colon, is fixed by lowering. -/
theorem lowerStr_base (s p : List Nat) (hs : lowerStr s = s) :
    lowerStr (s ++ 58 :: p) = s ++ 58 :: lowerStr p := by
  unfold lowerStr at hs ⊢
  rw [List.map_append, List.map_cons, hs]
  rfl

/-- Auxiliary: a string made of a colon-free part, a colon and a rest is
determined by the two parts. -/
theorem append_cons58_inj {s1 p1 s2 p2 : List Nat} (h1 : 58 ∉ s1) (h2 : 58 ∉ s2) :
    s1 ++ 58 :: p1 = s2 ++ 58 :: p2 ↔ s1 = s2 ∧ p1 = p2 := by
  induction s1 generalizing s2 with
  | nil =>
      cases s2 with
      | nil => simp
      | cons d u =>
          simp only [List.nil_append, List.cons_append]
          constructor
          · intro h
            injection h with hd _
            exact absurd (by rw [hd]; exact List.mem_cons_self _ _) h2
          · rintro ⟨h, -⟩
            exact List.noConfusion h
  | cons c t ih =>
      have h1t : 58 ∉ t := fun hm => h1 (List.mem_cons_of_mem _ hm)
      cases s2 with
      | nil =>
          simp only [List.cons_append, List.nil_append]
          constructor
          · intro h
            injection h with hc _
            exact absurd (by rw [← hc]; exact List.mem_cons_self _ _) h1
          · rintro ⟨h, -⟩
            exact List.noConfusion h
      | cons d u =>
          have h2u : 58 ∉ u := fun hm => h2 (List.mem_cons_of_mem _ hm)
          simp only [List.cons_append, List.cons.injEq]
          rw [ih h1t h2u]
          exact and_assoc.symm

/-- C5: for well formed schemes, two resource URIs are equivalent exactly
when their schemes agree and their normalized paths agree, where
normalization ignores query (the readonly flag) and fragment and lowers the
path except for a streamfile path under the case-sensitive root /QOpenSys,
which is kept as is; in particular two URIs differing only in query and
fragment are always equivalent. -/
theorem c5_same_resource (a b : Uri) (ha : schemeOk a.scheme) (hb : schemeOk b.scheme) :
    (areEquivalentUris a b = true ↔ (a.scheme = b.scheme ∧ normPath a = normPath b)) ∧
    (∀ q f q2 f2 : List Nat,
      areEquivalentUris ⟨a.scheme, a.path, q, f⟩ ⟨a.scheme, a.path, q2, f2⟩ = true) := by
  constructor
  · unfold areEquivalentUris
    rw [decide_eq_true_eq]
    unfold uriStringWithoutFragment normPath
    by_cases hca : a.scheme = strCodes "streamfile" ∧ underQOpenSys a.path = true
    · by_cases hcb : b.scheme = strCodes "streamfile" ∧ underQOpenSys b.path = true
      · rw [if_pos hca, if_pos hcb, if_pos hca, if_pos hcb]
        exact append_cons58_inj ha.1 hb.1
      · rw [if_pos hca, if_neg hcb, if_pos hca, if_neg hcb]
        rw [lowerStr_base b.scheme b.path hb.2]
        exact append_cons58_inj ha.1 hb.1
    · by_cases hcb : b.scheme = strCodes "streamfile" ∧ underQOpenSys b.path = true
      · rw [if_neg hca, if_pos hcb, if_neg hca, if_pos hcb]
        rw [lowerStr_base a.scheme a.path ha.2]
        exact append_cons58_inj ha.1 hb.1
      · rw [if_neg hca, if_neg hcb, if_neg hca, if_neg hcb]
        rw [lowerStr_base a.scheme a.path ha.2, lowerStr_base b.scheme b.path hb.2]
        exact append_cons58_inj ha.1 hb.1
  · intro q f q2 f2
    unfold areEquivalentUris uriStringWithoutFragment
    simp

end UriUtils

namespace UriUtils

/-- C5 witness: a member URI carrying the readonly query and a fragment is
equivalent to the same member written in the other case with neither. -/
theorem c5_witness :
    areEquivalentUris
      ⟨strCodes "member", strCodes "/LIB/QRPGLESRC/PGM.RPGLE", strCodes "readonly=true", []⟩
      ⟨strCodes "member", strCodes "/lib/qrpglesrc/pgm.rpgle", [], strCodes "frag"⟩ = true :=
  ((c5_same_resource
      ⟨strCodes "member", strCodes "/LIB/QRPGLESRC/PGM.RPGLE", strCodes "readonly=true", []⟩
      ⟨strCodes "member", strCodes "/lib/qrpglesrc/pgm.rpgle", [], strCodes "frag"⟩
      ⟨by decide, by decide⟩ ⟨by decide, by decide⟩).1).mpr (by decide)

end UriUtils
